import Mathlib

/-!
# Shallow embedding of `src/tm.cpp` (software transactional memory skeleton)

The C++ translation unit defines the region header layout, `tm_create`, and the
transactional entry points `tm_start`, `tm_size`, `tm_align`, `tm_begin`, `tm_end`,
`tm_read`, `tm_write`, `tm_alloc`, `tm_free`.

Conventions of the embedding:

* `size_t` values are natural numbers; arithmetic on them wraps modulo `2 ^ 64`.
* Pointers are natural numbers, `NULL = 0`.
* Memory is passed explicitly.  A function that touches memory takes a `Memory` and
  returns the new `Memory` together with its C++ return value.
* Undefined behaviour (a store through a pointer that designates no storage or too
  little storage, a division by zero) is the result `none`.
* `sizeof(header)` depends on the target ABI and is the parameter `H`.
* `aligned_alloc` belongs to the C library and is a parameter of `tm_create`.
* `invalid_tx` is declared in `tm.hpp`, which is not part of the translation unit; it
  is a parameter of `tm_begin`.
-/

set_option linter.unusedVariables false

namespace TM

/-! ## Machine integers -/

/-- Number of values of a `size_t` (64-bit target). -/
def SIZE_MOD : Nat := 2 ^ 64

/-- Wrapping `size_t` addition. -/
def add_sz (a b : Nat) : Nat := (a + b) % SIZE_MOD

/-- Wrapping `size_t` multiplication. -/
def mul_sz (a b : Nat) : Nat := (a * b) % SIZE_MOD

/-- Wrapping `size_t` subtraction. -/
def sub_sz (a b : Nat) : Nat := (a % SIZE_MOD + (SIZE_MOD - b % SIZE_MOD)) % SIZE_MOD

/-! ## Data model -/

/-- Addresses. -/
abbrev ptr := Nat

/-- The null pointer. -/
def NULL : ptr := 0

/-- Region handle (`shared_t` is `void *`). -/
abbrev shared_t := ptr

/-- Transaction handle (`tx_t` is an integer wide enough for a pointer). -/
abbrev tx_t := Nat

/-- The versioned lock word: `struct atomic_header { bool locked : 1; uint32_t version : 31; }`. -/
structure atomic_header where
  locked : Bool
  version : Nat
deriving DecidableEq

/-- The region header: `struct header`. -/
structure header where
  atomic_header : TM.atomic_header
  size : Nat
  align : Nat
  offset : Nat
deriving DecidableEq

/-- A region allocation: `struct block { header header; uint8_t data[]; }`. -/
structure block where
  header : TM.header
  data : List Nat
deriving DecidableEq

/-- Modelled from the spec: the `Alloc` enumeration of the absent `tm.hpp`, the
three-way result of an allocation (success / no memory / abort). -/
inductive Alloc where
  | success
  | nomem
  | abort
deriving DecidableEq

/-- Explicit memory: the storage designated by block pointers, the number of bytes
of each such allocation, and the bytes of the private buffers handed to `tm_read` /
`tm_write` / `tm_alloc`. -/
structure Memory where
  blocks : ptr → Option block
  extent : ptr → Nat
  priv : ptr → Nat

/-- Store to a member of the header of the block designated by `p`, where `H` is
`sizeof(header)`.  Storing through `NULL`, through a pointer that designates no
storage, or into a header that does not lie within the `extent` bytes of its
allocation, is undefined behaviour. -/
def store_header (H : Nat) (mem : Memory) (p : ptr) (f : header → header) : Option Memory :=
  if p = NULL then none
  else if mem.extent p < H then none
  else
    match mem.blocks p with
    | none => none
    | some b =>
      some { mem with
        blocks := fun q => if q = p then some { b with header := f b.header } else mem.blocks q }

/-- The bytes of a private buffer of length `n` starting at `p`. -/
def read_priv (mem : Memory) (p : ptr) (n : Nat) : List Nat :=
  (List.range n).map (fun i => mem.priv (p + i))

/-! ## `tm_create` -/

/-- The expression `size + (sizeof(header) / align + 1) * align` of `tm_create`. -/
def tm_create_total_size (H size align : Nat) : Nat :=
  add_sz size (mul_sz (add_sz (H / align) 1) align)

/-- The expression `total_size - size - sizeof(header)` of `tm_create`. -/
def tm_create_offset (H size align : Nat) : Nat :=
  sub_sz (sub_sz (tm_create_total_size H size align) size) H

/-- Embedding of `tm_create(size, align)`.  `aligned_alloc mem align n` is the C
library allocator: it returns the memory after the call and the pointer (`NULL` on
failure).  There is no null check, and no check of the computed size, between the
allocation and the four header stores. -/
def tm_create (H : Nat) (aligned_alloc : Memory → Nat → Nat → Memory × ptr)
    (mem : Memory) (size align : Nat) : Option (Memory × shared_t) :=
  if align = 0 then none
  else
    let total_size := tm_create_total_size H size align
    let r := aligned_alloc mem align (tm_create_total_size H size align)
    let blk := r.2
    (store_header H r.1 blk
        (fun h => { h with atomic_header := { locked := false, version := 0 } })).bind fun m1 =>
    (store_header H m1 blk (fun h => { h with size := size })).bind fun m2 =>
    (store_header H m2 blk (fun h => { h with align := align })).bind fun m3 =>
    (store_header H m3 blk
        (fun h => { h with offset := sub_sz (sub_sz total_size size) H })).bind fun m4 =>
    some (m4, blk)

/-! ## Queries -/

/-- Embedding of `tm_start`: `return NULL;`. -/
def tm_start (mem : Memory) (shared : shared_t) : ptr := NULL

/-- Embedding of `tm_size`: `return 0;`. -/
def tm_size (mem : Memory) (shared : shared_t) : Nat := 0

/-- Embedding of `tm_align`: `return 0;`. -/
def tm_align (mem : Memory) (shared : shared_t) : Nat := 0

/-! ## Transactions -/

/-- Embedding of `tm_begin`: `return invalid_tx;`. -/
def tm_begin (invalid_tx : tx_t) (mem : Memory) (shared : shared_t) (is_ro : Bool) :
    Memory × tx_t :=
  (mem, invalid_tx)

/-- Embedding of `tm_end`: `return false;`. -/
def tm_end (mem : Memory) (shared : shared_t) (tx : tx_t) : Memory × Bool :=
  (mem, false)

/-- Embedding of `tm_read`: `return false;`. -/
def tm_read (mem : Memory) (shared : shared_t) (tx : tx_t) (source : ptr) (size : Nat)
    (target : ptr) : Memory × Bool :=
  (mem, false)

/-- Embedding of `tm_write`: `return false;`. -/
def tm_write (mem : Memory) (shared : shared_t) (tx : tx_t) (source : ptr) (size : Nat)
    (target : ptr) : Memory × Bool :=
  (mem, false)

/-- Embedding of `tm_alloc`: `return Alloc::abort;`. -/
def tm_alloc (mem : Memory) (shared : shared_t) (tx : tx_t) (size : Nat) (target : ptr) :
    Memory × Alloc :=
  (mem, Alloc.abort)

/-- Embedding of `tm_free`: `return false;`. -/
def tm_free (mem : Memory) (shared : shared_t) (tx : tx_t) (target : ptr) : Memory × Bool :=
  (mem, false)

/-! ## Single-threaded call sequences -/

/-- One call issued by a client inside a transaction body. -/
inductive Call where
  | begin (is_ro : Bool)
  | read (tx : tx_t) (source : ptr) (size : Nat) (target : ptr)
  | write (tx : tx_t) (source : ptr) (size : Nat) (target : ptr)
  | alloc (tx : tx_t) (size : Nat) (target : ptr)
  | free (tx : tx_t) (target : ptr)

/-- Memory after one call on region `shared`. -/
def run_call (invalid_tx : tx_t) (shared : shared_t) (mem : Memory) : Call → Memory
  | Call.begin is_ro => (tm_begin invalid_tx mem shared is_ro).1
  | Call.read tx source size target => (tm_read mem shared tx source size target).1
  | Call.write tx source size target => (tm_write mem shared tx source size target).1
  | Call.alloc tx size target => (tm_alloc mem shared tx size target).1
  | Call.free tx target => (tm_free mem shared tx target).1

/-- Memory after a sequence of calls on region `shared`, in program order. -/
def run_calls (invalid_tx : tx_t) (shared : shared_t) (mem : Memory) (calls : List Call) :
    Memory :=
  calls.foldl (run_call invalid_tx shared) mem

/-! ## Concrete memories and allocators used to evaluate the code -/

/-- A memory with no allocated block, whose private bytes are all zero. -/
def empty_memory : Memory :=
  { blocks := fun _ => none, extent := fun _ => 0, priv := fun _ => 0 }

/-- A memory whose private buffer at address `p` holds the bytes `bs`. -/
def with_priv (mem : Memory) (p : ptr) (bs : List Nat) : Memory :=
  { mem with priv := fun q => if p ≤ q ∧ q < p + bs.length then bs.getD (q - p) 0 else mem.priv q }

/-- An allocator that succeeds at address `p`, handing out exactly the `n` requested
bytes of uninitialised storage (the header holds leftover values, here a locked word
with version 7). -/
def alloc_at (H : Nat) (p : ptr) (mem : Memory) (align n : Nat) : Memory × ptr :=
  ({ mem with
      blocks := fun q =>
        if q = p then
          some { header := { atomic_header := { locked := true, version := 7 },
                             size := 1, align := 1, offset := 1 },
                 data := List.replicate (n - H) 0 }
        else mem.blocks q
      extent := fun q => if q = p then n else mem.extent q },
   p)

/-- An allocator that cannot satisfy the request: memory is unchanged, result `NULL`. -/
def alloc_fail (mem : Memory) (align n : Nat) : Memory × ptr := (mem, NULL)

/-- The bytes `1, 2, ..., 8` placed in a private buffer at address `100`; the private
bytes at address `200` are zero. -/
def scenario_memory : Memory := with_priv empty_memory 100 [1, 2, 3, 4, 5, 6, 7, 8]

/-- The call `tm_create(64, 8)` on a target where `sizeof(header) = 32`, with an
allocation that succeeds at address `4096`. -/
def scenario_region : Option (Memory × shared_t) :=
  tm_create 32 (alloc_at 32 4096) scenario_memory 64 8

/-- Memory after the scenario's `tm_create(64, 8)`. -/
def scenario_region_memory : Memory :=
  match scenario_region with
  | some (m, _) => m
  | none => empty_memory

theorem total_size_no_wrap (H size align : Nat) (halign : 1 ≤ align)
    (hfit : size + (H / align + 1) * align < SIZE_MOD) :
    tm_create_total_size H size align = size + (H / align + 1) * align := by
  have h1 : (H / align + 1) * align < SIZE_MOD := by omega
  have h2 : H / align + 1 < SIZE_MOD := by
    have : H / align + 1 ≤ (H / align + 1) * align := Nat.le_mul_of_pos_right _ halign
    omega
  unfold tm_create_total_size add_sz mul_sz
  rw [Nat.mod_eq_of_lt h2, Nat.mod_eq_of_lt h1, Nat.mod_eq_of_lt hfit]

theorem header_lt_padded (H align : Nat) (halign : 1 ≤ align) :
    H < (H / align + 1) * align := by
  have h := Nat.div_add_mod H align
  have hm := Nat.mod_lt H halign
  have hc : (H / align + 1) * align = align * (H / align) + align := by ring
  omega

theorem padded_le (H align : Nat) : (H / align) * align ≤ H := Nat.div_mul_le_self H align

theorem offset_no_wrap (H size align : Nat) (halign : 1 ≤ align)
    (hfit : size + (H / align + 1) * align < SIZE_MOD) :
    tm_create_offset H size align = (H / align + 1) * align - H := by
  have ht := total_size_no_wrap H size align halign hfit
  have hlt := header_lt_padded H align halign
  unfold tm_create_offset
  rw [ht]
  unfold sub_sz
  have hs : size < SIZE_MOD := by omega
  have hH : H < SIZE_MOD := by omega
  rw [Nat.mod_eq_of_lt hfit, Nat.mod_eq_of_lt hs, Nat.mod_eq_of_lt hH]
  have e1 : (size + (H / align + 1) * align + (SIZE_MOD - size)) % SIZE_MOD
      = (H / align + 1) * align := by
    have : size + (H / align + 1) * align + (SIZE_MOD - size)
        = (H / align + 1) * align + SIZE_MOD := by omega
    rw [this, Nat.add_mod_right]
    exact Nat.mod_eq_of_lt (by omega)
  rw [e1]
  have h1 : (H / align + 1) * align < SIZE_MOD := by omega
  rw [Nat.mod_eq_of_lt h1]
  have : (H / align + 1) * align + (SIZE_MOD - H)
      = ((H / align + 1) * align - H) + SIZE_MOD := by omega
  rw [this, Nat.add_mod_right]
  exact Nat.mod_eq_of_lt (by omega)

/-- Without overflow the requested allocation is larger than the header. -/
theorem header_fits_of_no_wrap (H size align : Nat) (halign : 1 ≤ align)
    (hfit : size + (H / align + 1) * align < SIZE_MOD) :
    H ≤ tm_create_total_size H size align := by
  rw [total_size_no_wrap H size align halign hfit]
  have hlt := header_lt_padded H align halign
  omega

/-! ## Header stores -/

theorem store_header_some (H : Nat) (mem m : Memory) (p : ptr) (f : header → header)
    (h : store_header H mem p f = some m) :
    p ≠ NULL ∧ H ≤ mem.extent p ∧ ∃ b, mem.blocks p = some b ∧
      m.blocks p = some { b with header := f b.header } ∧
      m.priv = mem.priv ∧ m.extent = mem.extent ∧
      ∀ q, q ≠ p → m.blocks q = mem.blocks q := by
  unfold store_header at h
  by_cases hp : p = NULL
  · simp [hp] at h
  · simp only [hp, if_false] at h
    by_cases hx : mem.extent p < H
    · simp [hx] at h
    · simp only [hx, if_false] at h
      cases hb : mem.blocks p with
      | none => simp [hb] at h
      | some b =>
        simp only [hb, Option.some.injEq] at h
        subst h
        refine ⟨hp, Nat.le_of_not_lt hx, b, rfl, by simp, rfl, rfl, ?_⟩
        intro q hq
        simp [hq]

/-- Whenever `tm_create` returns, the returned pointer is the allocator's, it is not
`NULL`, and the header it designates holds the four stored fields. -/
theorem tm_create_some (H : Nat) (aligned_alloc : Memory → Nat → Nat → Memory × ptr)
    (mem m : Memory) (size align : Nat) (r : shared_t)
    (h : tm_create H aligned_alloc mem size align = some (m, r)) :
    align ≠ 0 ∧
    r = (aligned_alloc mem align (tm_create_total_size H size align)).2 ∧ r ≠ NULL ∧
    ∃ b, m.blocks r = some b ∧
      b.header = { atomic_header := { locked := false, version := 0 },
                   size := size, align := align,
                   offset := tm_create_offset H size align } := by
  unfold tm_create at h
  by_cases ha : align = 0
  · simp [ha] at h
  · simp only [ha, if_false] at h
    obtain ⟨m1, h1, h⟩ := Option.bind_eq_some.mp h
    obtain ⟨m2, h2, h⟩ := Option.bind_eq_some.mp h
    obtain ⟨m3, h3, h⟩ := Option.bind_eq_some.mp h
    obtain ⟨m4, h4, h⟩ := Option.bind_eq_some.mp h
    simp only [Option.some.injEq, Prod.mk.injEq] at h
    obtain ⟨hm, hr⟩ := h
    subst hm
    obtain ⟨hn, -, b1, -, e1, -, -, -⟩ := store_header_some _ _ _ _ _ h1
    obtain ⟨-, -, b2, e2, e2b, -, -, -⟩ := store_header_some _ _ _ _ _ h2
    obtain ⟨-, -, b3, e3, e3b, -, -, -⟩ := store_header_some _ _ _ _ _ h3
    obtain ⟨-, -, b4, e4, e4b, -, -, -⟩ := store_header_some _ _ _ _ _ h4
    refine ⟨ha, hr.symm, hr ▸ hn, ?_⟩
    rw [← hr]
    rw [e1] at e2
    rw [e2b] at e3
    rw [e3b] at e4
    simp only [Option.some.injEq] at e2 e3 e4
    subst e2
    subst e3
    subst e4
    exact ⟨_, e4b, rfl⟩

theorem run_call_mem (invalid_tx : tx_t) (shared : shared_t) (mem : Memory) (c : Call) :
    run_call invalid_tx shared mem c = mem := by
  cases c <;> rfl

theorem run_calls_mem (invalid_tx : tx_t) (shared : shared_t) (mem : Memory)
    (calls : List Call) : run_calls invalid_tx shared mem calls = mem := by
  unfold run_calls
  induction calls with
  | nil => rfl
  | cons c cs ih => rw [List.foldl_cons, run_call_mem]; exact ih

/-! ## The scenario region -/

theorem scenario_region_eq : scenario_region = some (scenario_region_memory, 4096) := rfl

theorem scenario_region_some :
    ∃ m, scenario_region = some (m, 4096) ∧ m.priv = scenario_memory.priv ∧
      ∃ b, m.blocks 4096 = some b ∧
        b.header = { atomic_header := { locked := false, version := 0 },
                     size := 64, align := 8, offset := 8 } := by
  refine ⟨_, rfl, rfl, _, rfl, ?_⟩
  decide

/-! ## Claims -/

/-- C1: in the scenario "region created with `tm_create(64, 8)`, one read-write
transaction alone, 8 bytes written at offset 0 of the first segment", the code does not
commit: `tm_begin` returns the `invalid_tx` sentinel, `tm_write` returns `false` and
`tm_end` returns `false`. -/
theorem single_writer_scenario_does_not_commit :
    ∃ m r, scenario_region = some (m, r) ∧
      ∀ invalid_tx : tx_t,
        (tm_begin invalid_tx m r false).2 = invalid_tx ∧
        (tm_write (tm_begin invalid_tx m r false).1 r (tm_begin invalid_tx m r false).2
            100 8 (r + 32 + 8)).2 = false ∧
        (tm_end
            (tm_write (tm_begin invalid_tx m r false).1 r (tm_begin invalid_tx m r false).2
              100 8 (r + 32 + 8)).1
            r (tm_begin invalid_tx m r false).2).2 = false := by
  obtain ⟨m, hm, -, -⟩ := scenario_region_some
  exact ⟨m, 4096, hm, fun _ => ⟨rfl, rfl, rfl⟩⟩

/-- C2: in the scenario region, writing the 8 bytes `1, ..., 8` to the aligned address
at offset 0 of the first segment and reading them back at once, in the same
transaction, does not return them: `tm_write` returns `false`, `tm_read` returns
`false`, and the target buffer still holds its old bytes, which differ from the bytes
written. -/
theorem read_after_write_scenario_fails :
    ∃ m r, scenario_region = some (m, r) ∧
      ∀ tx : tx_t,
        read_priv m 100 8 = [1, 2, 3, 4, 5, 6, 7, 8] ∧
        (tm_write m r tx 100 8 (r + 32 + 8)).2 = false ∧
        (tm_read (tm_write m r tx 100 8 (r + 32 + 8)).1 r tx (r + 32 + 8) 8 200).2 = false ∧
        read_priv
          (tm_read (tm_write m r tx 100 8 (r + 32 + 8)).1 r tx (r + 32 + 8) 8 200).1 200 8
          ≠ read_priv m 100 8 := by
  obtain ⟨m, hm, hp, -⟩ := scenario_region_some
  have h100 : read_priv m 100 8 = [1, 2, 3, 4, 5, 6, 7, 8] := by
    unfold read_priv
    rw [hp]
    decide
  have h200 : read_priv m 200 8 = [0, 0, 0, 0, 0, 0, 0, 0] := by
    unfold read_priv
    rw [hp]
    decide
  refine ⟨m, 4096, hm, fun tx => ⟨h100, rfl, rfl, ?_⟩⟩
  show read_priv m 200 8 ≠ read_priv m 100 8
  rw [h100, h200]
  decide

/-- C4: on the valid scenario region, for either value of `is_ro` and whatever value
the sentinel has, `tm_begin` returns the `invalid_tx` sentinel, and it does so without
allocating anything (memory is unchanged), so no resource can have run out. -/
theorem tm_begin_returns_invalid_tx :
    ∃ m r, scenario_region = some (m, r) ∧
      ∀ (invalid_tx : tx_t) (is_ro : Bool),
        (tm_begin invalid_tx m r is_ro).2 = invalid_tx ∧
        (tm_begin invalid_tx m r is_ro).1 = m := by
  obtain ⟨m, hm, -, -⟩ := scenario_region_some
  exact ⟨m, 4096, hm, fun _ _ => ⟨rfl, rfl⟩⟩

/-- C5: on the region made by `tm_create(64, 8)`, whose header records size 64, align 8
and offset 8, the queries do not return those values: `tm_size` returns 0, `tm_align`
returns 0 and `tm_start` returns `NULL`. -/
theorem queries_ignore_region :
    ∃ m r b, scenario_region = some (m, r) ∧ m.blocks r = some b ∧
      b.header.size = 64 ∧ b.header.align = 8 ∧ b.header.offset = 8 ∧
      tm_size m r = 0 ∧ tm_align m r = 0 ∧ tm_start m r = NULL := by
  obtain ⟨m, hm, -, b, hb, hh⟩ := scenario_region_some
  refine ⟨m, 4096, b, hm, hb, ?_, ?_, ?_, rfl, rfl, rfl⟩ <;> rw [hh]

/-- C7: on the scenario region, for every transaction handle, `tm_alloc` of 8 bytes
(a positive multiple of the alignment 8) returns `abort`, neither `success` nor
`nomem`, and leaves memory (the `target` slot included) unchanged. -/
theorem tm_alloc_returns_abort :
    ∃ m r, scenario_region = some (m, r) ∧
      ∀ tx : tx_t, tm_alloc m r tx 8 200 = (m, Alloc.abort) ∧
        (tm_alloc m r tx 8 200).2 ≠ Alloc.success ∧
        (tm_alloc m r tx 8 200).2 ≠ Alloc.nomem := by
  obtain ⟨m, hm, -, -⟩ := scenario_region_some
  exact ⟨m, 4096, hm, fun _ => ⟨rfl, fun h => Alloc.noConfusion h, fun h => Alloc.noConfusion h⟩⟩

/-- C8: when the allocator yields `NULL`, `tm_create` has no defined result for any
request: its first header store goes through the null block pointer. -/
theorem tm_create_null_alloc_undefined (H : Nat) (mem : Memory) (size align : Nat) :
    (alloc_fail mem align (tm_create_total_size H size align)).2 = NULL ∧
    store_header H (alloc_fail mem align (tm_create_total_size H size align)).1
      (alloc_fail mem align (tm_create_total_size H size align)).2
      (fun h => { h with atomic_header := { locked := false, version := 0 } }) = none ∧
    tm_create H alloc_fail mem size align = none := by
  refine ⟨rfl, rfl, ?_⟩
  unfold tm_create
  by_cases ha : align = 0
  · simp [ha]
  · simp only [ha, if_false]
    rfl

/-- C9: after any single-threaded sequence of `tm_begin`, `tm_read`, `tm_write`,
`tm_alloc` and `tm_free` calls followed by a `tm_end` that returns `false`, memory
(hence the region header with its lock word, size, align and offset, and every data
byte) equals what it was before the first call; and `tm_write` alone never changes
memory. -/
theorem failed_transaction_leaves_region (invalid_tx : tx_t) (shared : shared_t)
    (mem : Memory) (calls : List Call) (tx : tx_t)
    (hend : (tm_end (run_calls invalid_tx shared mem calls) shared tx).2 = false) :
    (tm_end (run_calls invalid_tx shared mem calls) shared tx).1 = mem ∧
    (tm_end (run_calls invalid_tx shared mem calls) shared tx).1.blocks shared
      = mem.blocks shared ∧
    ∀ (m : Memory) (t : tx_t) (source : ptr) (size : Nat) (target : ptr),
      (tm_write m shared t source size target).1 = m := by
  have h : (tm_end (run_calls invalid_tx shared mem calls) shared tx).1 = mem :=
    run_calls_mem invalid_tx shared mem calls
  exact ⟨h, by rw [h], fun _ _ _ _ _ => rfl⟩

/-- Witness of C9: on the region made by `tm_create(64, 8)` at address 4096, whose
header holds (locked = false, version = 0), size 64, align 8, offset 8 and whose 72
bytes after the header are zero, a read-write transaction writes 8 bytes at offset 0 of
the first segment, reads them, allocates and frees, then ends with `false`; memory, and
with it the header and every data byte of the region, is as before. -/
theorem failed_transaction_leaves_region_witness :
    (tm_end (run_calls 18446744073709551615 4096 scenario_region_memory
        [Call.begin false, Call.write 18446744073709551615 100 8 4136,
         Call.read 18446744073709551615 4136 8 200, Call.alloc 18446744073709551615 8 300,
         Call.free 18446744073709551615 4136]) 4096 18446744073709551615).2 = false ∧
    scenario_region = some (scenario_region_memory, 4096) ∧
    scenario_region_memory.blocks 4096
      = some { header := { atomic_header := { locked := false, version := 0 },
                           size := 64, align := 8, offset := 8 },
               data := List.replicate 72 0 } ∧
    (tm_end (run_calls 18446744073709551615 4096 scenario_region_memory
        [Call.begin false, Call.write 18446744073709551615 100 8 4136,
         Call.read 18446744073709551615 4136 8 200, Call.alloc 18446744073709551615 8 300,
         Call.free 18446744073709551615 4136]) 4096 18446744073709551615).1
      = scenario_region_memory ∧
    (tm_end (run_calls 18446744073709551615 4096 scenario_region_memory
        [Call.begin false, Call.write 18446744073709551615 100 8 4136,
         Call.read 18446744073709551615 4136 8 200, Call.alloc 18446744073709551615 8 300,
         Call.free 18446744073709551615 4136]) 4096 18446744073709551615).1.blocks 4096
      = scenario_region_memory.blocks 4096 :=
  have h := failed_transaction_leaves_region 18446744073709551615 4096 scenario_region_memory
    [Call.begin false, Call.write 18446744073709551615 100 8 4136,
     Call.read 18446744073709551615 4136 8 200, Call.alloc 18446744073709551615 8 300,
     Call.free 18446744073709551615 4136] 18446744073709551615 rfl
  ⟨rfl, rfl, by decide, h.1, h.2.1⟩

/-- C10: with `H = sizeof(header)`, for every `align >= 1` and every `size` that is a
positive multiple of `align` such that `size + (H / align + 1) * align` fits a `size_t`:
the allocation size computed by `tm_create` is that sum and is a multiple of `align`;
the stored offset is `total_size - size - H` without underflow and lies between 1 and
`align`; `H + offset` is a multiple of `align`; `H + offset + size = total_size`; so
for every `align`-aligned block address the `size` bytes starting `offset` bytes past
the header are `align`-aligned and end exactly at the end of the allocation.  The
offset field of the header of every region returned by `tm_create` is that offset. -/
theorem tm_create_layout (H size align : Nat) (halign : 1 ≤ align) (hpos : 0 < size)
    (hmul : align ∣ size) (hfit : size + (H / align + 1) * align < SIZE_MOD) :
    tm_create_total_size H size align = size + (H / align + 1) * align ∧
    align ∣ tm_create_total_size H size align ∧
    size + H ≤ tm_create_total_size H size align ∧
    tm_create_offset H size align = tm_create_total_size H size align - size - H ∧
    1 ≤ tm_create_offset H size align ∧
    tm_create_offset H size align ≤ align ∧
    align ∣ H + tm_create_offset H size align ∧
    H + tm_create_offset H size align + size = tm_create_total_size H size align ∧
    (∀ base : Nat, align ∣ base →
      align ∣ base + H + tm_create_offset H size align ∧
      base + H + tm_create_offset H size align + size
        = base + tm_create_total_size H size align) ∧
    (∀ (aligned_alloc : Memory → Nat → Nat → Memory × ptr) (mem m : Memory)
        (r : shared_t) (b : block),
      tm_create H aligned_alloc mem size align = some (m, r) → m.blocks r = some b →
      b.header.offset = tm_create_offset H size align) := by
  have ht := total_size_no_wrap H size align halign hfit
  have ho := offset_no_wrap H size align halign hfit
  have hlt := header_lt_padded H align halign
  have hle := padded_le H align
  have hexp : (H / align + 1) * align = H / align * align + align := by ring
  have hpad : align ∣ (H / align + 1) * align := Dvd.intro_left _ rfl
  have hsum : H + tm_create_offset H size align = (H / align + 1) * align := by
    rw [ho]; exact Nat.add_sub_cancel' (Nat.le_of_lt hlt)
  have hP : (H / align + 1) * align ≤ H + align := by
    rw [hexp]; exact Nat.add_le_add_right hle align
  have hdt : align ∣ tm_create_total_size H size align := by
    rw [ht]; exact Dvd.dvd.add hmul hpad
  have hdo : align ∣ H + tm_create_offset H size align := by
    rw [hsum]; exact hpad
  have hdb : ∀ base : Nat, align ∣ base →
      align ∣ base + H + tm_create_offset H size align := by
    intro base hbase
    rw [Nat.add_assoc]; exact Dvd.dvd.add hbase hdo
  have hst : ∀ (aligned_alloc : Memory → Nat → Nat → Memory × ptr) (mem m : Memory)
      (r : shared_t) (b : block),
      tm_create H aligned_alloc mem size align = some (m, r) → m.blocks r = some b →
      b.header.offset = tm_create_offset H size align := by
    intro aligned_alloc mem m r b hc hb
    obtain ⟨-, -, -, b1, hb1, hh⟩ := tm_create_some H aligned_alloc mem m size align r hc
    rw [hb] at hb1
    simp only [Option.some.injEq] at hb1
    rw [hb1, hh]
  clear ho hexp hpad hle
  generalize (H / align + 1) * align = P at ht hsum hlt hP hfit
  generalize tm_create_offset H size align = off at hsum hdo hdb hst ⊢
  refine ⟨ht, hdt, ?_, ?_, ?_, ?_, hdo, ?_, ?_, hst⟩
  · omega
  · omega
  · omega
  · omega
  · omega
  · intro base hbase
    have hend : (base + H + off + size : Nat) = base + tm_create_total_size H size align := by
      omega
    exact ⟨hdb base hbase, hend⟩

/-- Witness of C10: `sizeof(header) = 32`, `size = 64`, `align = 8` gives an allocation
of 104 bytes and offset 8. -/
theorem tm_create_layout_witness :
    (1 ≤ 8 ∧ 0 < 64 ∧ 8 ∣ 64 ∧ 64 + (32 / 8 + 1) * 8 < SIZE_MOD) ∧
    tm_create_total_size 32 64 8 = 64 + (32 / 8 + 1) * 8 ∧
    1 ≤ tm_create_offset 32 64 8 ∧ tm_create_offset 32 64 8 ≤ 8 ∧
    32 + tm_create_offset 32 64 8 + 64 = tm_create_total_size 32 64 8 :=
  have h := tm_create_layout 32 64 8 (by decide) (by decide) (by decide) (by decide)
  ⟨⟨by decide, by decide, by decide, by decide⟩, h.1, h.2.2.2.2.1, h.2.2.2.2.2.1,
    h.2.2.2.2.2.2.2.1⟩

end TM
